import Mathlib

/-! Shallow embedding of the DigiPatch Reddit data-collection engine.

Namespace `DigiPatch` models `collect_reddit_data` of `digipatchapp.py`
(lines 41-130): nested iteration over subreddits, sorting methods, posts
and comments, accumulating output rows, warning messages and progress
events.  Namespace `UserInput` models `collect_reddit_data` of
`app_with_user_input.py` (lines 27-50).

Modelling conventions: the remote PRAW calls are abstracted as a
`Provider` record of fallible functions; a Python exception is
`Except.error` carrying its message; Python `None` is `Option.none`;
Python floats (`upvote_ratio`, progress fractions) are modelled exactly
by `ℚ`; a UTC timestamp is kept as its integer epoch value (the
`datetime.utcfromtimestamp` conversion is injective, so nothing is lost).
The `sleep_time` pacing parameter has no observable effect on the
returned data and is carried through unused.
-/

namespace DigiPatch

/-- A post as observed through the provider: `post.id`, `post.title`,
`post.author` (`none` when the author is deleted/absent), `post.score`,
`post.num_comments`, `post.upvote_ratio`, `post.url`, `post.created_utc`. -/
structure Post where
  id : String
  title : String
  author : Option String
  score : Int
  numComments : Nat
  upvoteFrac : ℚ
  url : String
  created : Int
  deriving DecidableEq

/-- A comment as observed through the provider: `comment.author` (`none`
when deleted/absent), `comment.score`, `comment.body`,
`comment.created_utc`. -/
structure Comment where
  author : Option String
  score : Int
  body : String
  created : Int
  deriving DecidableEq

/-- One output row (digipatchapp.py lines 99-120): the ten post-level
fields followed by the four comment-level fields, which are `none` when
the row carries no comment. -/
structure Row where
  subreddit : String
  postId : String
  postTitle : String
  postAuthor : String
  postScore : Int
  postNumComments : Nat
  postUpvoteFrac : ℚ
  postUrl : String
  postCreated : Int
  sortingMethod : String
  commentAuthor : Option String
  commentScore : Option Int
  commentBody : Option String
  commentCreated : Option Int
  deriving DecidableEq

/-- Line 72: `post_author = str(post.author)`.  Python's `str(None)` is
the literal string `"None"`; for a present author it is the user name. -/
def strOfAuthor : Option String → String
  | none => "None"
  | some a => a

/-- Lines 99-120: build one output row from a post and an optional
comment.  Line 95: `comment_author = str(comment.author) if
comment.author else None`, so an absent comment author stays `none`
rather than becoming the string `"None"`. -/
def buildRow (subName : String) (p : Post) (method : String) (c : Option Comment) : Row :=
  { subreddit := subName
    postId := p.id
    postTitle := p.title
    postAuthor := strOfAuthor p.author
    postScore := p.score
    postNumComments := p.numComments
    postUpvoteFrac := p.upvoteFrac
    postUrl := p.url
    postCreated := p.created
    sortingMethod := method
    commentAuthor := c.bind Comment.author
    commentScore := c.map Comment.score
    commentBody := c.map Comment.body
    commentCreated := c.map Comment.created }

/-- The projection of a row onto its ten post-level fields. -/
def postFields (r : Row) : String × String × String × String × Int × Nat × ℚ × String × Int × String :=
  (r.subreddit, r.postId, r.postTitle, r.postAuthor, r.postScore, r.postNumComments,
   r.postUpvoteFrac, r.postUrl, r.postCreated, r.sortingMethod)

/-- Lines 84-87: `comment_list = all_comments[:comment_limit]` when a
limit is set, otherwise the whole materialized list. -/
def selectComments (commentLimit : Option Nat) (allComments : List Comment) : List Comment :=
  match commentLimit with
  | some n => allComments.take n
  | none => allComments

/-- The remote side, abstracted: `subredditOf` is `reddit.subreddit(name)`
(line 55) returning a handle; `listing` is
`getattr(subreddit, sorting_method)(limit=post_limit)` fully iterated
(line 63); `comments` is `post.comments.replace_more(limit=0)` followed by
`post.comments.list()` (lines 81-82).  An `Except.error` stands for a
raised exception with its message. -/
structure Provider where
  subredditOf : String → Except String String
  listing : String → String → Option Nat → Except String (List Post)
  comments : Post → Except String (List Comment)

/-- The invocation discipline of every remote fetch in
`collect_reddit_data` (lines 62-66 for listings, lines 80-90 for comment
trees): the operation sits inside a single `try`/`except` with no
surrounding loop, so it is invoked exactly once — attempt index `0` —
and whatever that one attempt produced decides success or skip.  The
second component instruments the number of invocations made, which is
always `1`; there is no retry of any kind in the source. -/
def fetchOnce {α : Type} (op : Nat → Except String α) : Except String α × Nat :=
  (op 0, 1)

/-- A progress event: line 125 reports the fraction
`min(current_iteration / total_iterations, 1.0)` when the post limit is
set, line 127 reports the running count `current_iteration` otherwise. -/
inductive Progress where
  | frac : ℚ → Progress
  | count : Nat → Progress
  deriving DecidableEq

/-- Pointwise order on progress events of the same kind. -/
def progLE : Progress → Progress → Prop
  | .frac x, .frac y => x ≤ y
  | .count m, .count n => m ≤ n
  | _, _ => False

/-- Lines 44-47: `total_iterations = len(subreddits) * len(sorting_methods)
* post_limit` when a post limit is set, `None` otherwise. -/
def totalIterations (subreddits sortingMethods : List String) (postLimit : Option Nat) : Option Nat :=
  postLimit.map (fun l => subreddits.length * sortingMethods.length * l)

/-- The observable state threaded through the collection loops:
`rows` is `combined_data` (line 42, appended at lines 104/112/120),
`warnings` collects the `st.error` messages, `progress` collects the
emitted progress events, `iter` is `current_iteration` (line 51). -/
structure CState where
  rows : List Row
  warnings : List String
  progress : List Progress
  iter : Nat
  deriving DecidableEq

/-- The state before any collection: empty buffers, `current_iteration = 0`. -/
def initState : CState := ⟨[], [], [], 0⟩

/-- Lines 123-127: the progress event emitted when `current_iteration`
advances from `k` to `k + 1`: fraction `min((k+1)/total, 1.0)` when the
total is known, else the count `k + 1`. -/
def mkEvent (total : Option Nat) (k : Nat) : Progress :=
  match total with
  | some t => .frac (min (((k + 1 : Nat) : ℚ) / (t : ℚ)) 1)
  | none => .count (k + 1)

/-- Line 89: `f"Error collecting comments for post {post.id} in
r/{subreddit_name}: {e}"`. -/
def commentsWarning (postId subName e : String) : String :=
  "Error collecting comments for post " ++ postId ++ " in r/" ++ subName ++ ": " ++ e

/-- Line 65: `f"Error fetching posts for r/{subreddit_name} using
{sorting_method}: {e}"`. -/
def listingWarning (subName method e : String) : String :=
  "Error fetching posts for r/" ++ subName ++ " using " ++ method ++ ": " ++ e

/-- Line 57: `f"Error accessing subreddit {subreddit_name}: {e}"`. -/
def subredditWarning (subName e : String) : String :=
  "Error accessing subreddit " ++ subName ++ ": " ++ e

/-- Lines 79-120: the per-post body.  When `collect_comments` is set the
comment tree is fetched once (lines 80-87); an exception leaves
`comment_list = []` plus an error message (lines 88-90).  A non-empty
`comment_list` yields one row per comment (lines 93-104); an empty one, or
`collect_comments` unset, yields a single row with `None` comment fields
(lines 105-120).  Returns the rows appended for this post and the warning
messages surfaced. -/
def processPost (prov : Provider) (subName method : String) (collectComments : Bool)
    (commentLimit : Option Nat) (p : Post) : List Row × List String :=
  if collectComments then
    let fetched : List Comment × List String :=
      match (fetchOnce (fun _ => prov.comments p)).1 with
      | .ok allComments => (selectComments commentLimit allComments, [])
      | .error e => ([], [commentsWarning p.id subName e])
    if fetched.1.isEmpty then
      ([buildRow subName p method none], fetched.2)
    else
      (fetched.1.map (fun c => buildRow subName p method (some c)), fetched.2)
  else
    ([buildRow subName p method none], [])

/-- Lines 68-128: process one post and update the loop state — append its
rows and warnings, advance `current_iteration`, and emit the progress
event of lines 123-127. -/
def stepPost (prov : Provider) (subName method : String) (collectComments : Bool)
    (commentLimit : Option Nat) (total : Option Nat) (st : CState) (p : Post) : CState :=
  let pr := processPost prov subName method collectComments commentLimit p
  { rows := st.rows ++ pr.1
    warnings := st.warnings ++ pr.2
    progress := st.progress ++ [mkEvent total st.iter]
    iter := st.iter + 1 }

/-- Line 68: `for post in posts:` — fold `stepPost` over the listing. -/
def processPosts (prov : Provider) (subName method : String) (collectComments : Bool)
    (commentLimit : Option Nat) (total : Option Nat) (st : CState) (posts : List Post) : CState :=
  posts.foldl (stepPost prov subName method collectComments commentLimit total) st

/-- Lines 60-66: one iteration of the sorting-method loop.  The listing
fetch is a single attempt (lines 62-63); an exception surfaces an error
message and `continue`s to the next method (lines 64-66). -/
def processMethodStep (prov : Provider) (subName handle : String) (postLimit : Option Nat)
    (collectComments : Bool) (commentLimit : Option Nat) (total : Option Nat)
    (st : CState) (method : String) : CState :=
  match (fetchOnce (fun _ => prov.listing handle method postLimit)).1 with
  | .ok posts => processPosts prov subName method collectComments commentLimit total st posts
  | .error e => { st with warnings := st.warnings ++ [listingWarning subName method e] }

/-- Lines 53-66: one iteration of the subreddit loop.  A lookup exception
surfaces an error message and `continue`s to the next subreddit
(lines 56-58); otherwise the sorting methods are iterated in order. -/
def processSubreddit (prov : Provider) (sortingMethods : List String) (postLimit : Option Nat)
    (collectComments : Bool) (commentLimit : Option Nat) (total : Option Nat)
    (st : CState) (subName : String) : CState :=
  match prov.subredditOf subName with
  | .ok handle =>
      sortingMethods.foldl
        (processMethodStep prov subName handle postLimit collectComments commentLimit total) st
  | .error e => { st with warnings := st.warnings ++ [subredditWarning subName e] }

/-- Line 53: `for subreddit_name in subreddits:` — fold over the
subreddit list starting from `st`. -/
def collectFrom (prov : Provider) (sortingMethods : List String) (postLimit : Option Nat)
    (collectComments : Bool) (commentLimit : Option Nat) (total : Option Nat)
    (st : CState) (subreddits : List String) : CState :=
  subreddits.foldl
    (processSubreddit prov sortingMethods postLimit collectComments commentLimit total) st

/-- Lines 41-130: `collect_reddit_data(reddit, subreddits, sorting_methods,
post_limit, collect_comments, sleep_time, comment_limit)`.  Returns the
final state: `combined_data` (line 130) together with the surfaced
warnings and progress events.  `sleep_time` only paces the loop
(line 128) and has no observable effect on the result. -/
def collect_reddit_data (prov : Provider) (subreddits sortingMethods : List String)
    (postLimit : Option Nat) (collectComments : Bool) (sleep_time : ℚ)
    (commentLimit : Option Nat) : CState :=
  let _ := sleep_time
  collectFrom prov sortingMethods postLimit collectComments commentLimit
    (totalIterations subreddits sortingMethods postLimit) initState subreddits

end DigiPatch

namespace UserInput

/-- One output row of `app_with_user_input.py` (lines 37-41): title,
author (via `str(post.author)`, so an absent author is the string
`"None"`), score, comment count, upvote ratio, URL, timestamp, sorting
method. -/
structure PostRow where
  title : String
  author : String
  score : Int
  numComments : Nat
  upvoteFrac : ℚ
  url : String
  created : Int
  sortingMethod : String
  deriving DecidableEq

/-- Lines 37-41: build one post row. -/
def buildPostRow (p : DigiPatch.Post) (method : String) : PostRow :=
  { title := p.title
    author := DigiPatch.strOfAuthor p.author
    score := p.score
    numComments := p.numComments
    upvoteFrac := p.upvoteFrac
    url := p.url
    created := p.created
    sortingMethod := method }

/-- Lines 28-44: the body of the outer `try` — look the subreddit up,
then for each sorting method fetch the listing and append one row per
post to `all_data`.  Any exception anywhere in this body escapes to the
handlers of lines 45-50. -/
def collectGo (prov : DigiPatch.Provider) (subredditName : String)
    (sortingMethods : List String) (limit : Option Nat) : Except String (List PostRow) := do
  let handle ← prov.subredditOf subredditName
  sortingMethods.foldlM
    (fun acc method => do
      let posts ← prov.listing handle method limit
      return acc ++ posts.map (fun p => buildPostRow p method))
    []

/-- Lines 27-50: `collect_reddit_data(reddit, subreddit_name,
sorting_methods, limit)`.  The whole collection sits in one
`try`/`except`; both handlers (lines 45-50) surface an error message and
`return []`, discarding whatever `all_data` had accumulated. -/
def collect_reddit_data (prov : DigiPatch.Provider) (subredditName : String)
    (sortingMethods : List String) (limit : Option Nat) : List PostRow :=
  match collectGo prov subredditName sortingMethods limit with
  | .ok data => data
  | .error _ => []

end UserInput

namespace DigiPatch

/-- The sequence of progress events emitted while `current_iteration`
advances from `s` to `s + n`, one event per processed post. -/
def evSeq (total : Option Nat) (s : Nat) : Nat → List Progress
  | 0 => []
  | n + 1 => mkEvent total s :: evSeq total (s + 1) n

/-- A state transformer that only advances `current_iteration` and appends
the matching progress events: the common shape of every loop body of
`collect_reddit_data`. -/
def Shaped {α : Type} (total : Option Nat) (f : CState → α → CState) : Prop :=
  ∀ (st : CState) (a : α),
    ∃ d, (f st a).iter = st.iter + d ∧ (f st a).progress = st.progress ++ evSeq total st.iter d

/-- A row produced by the row builder of lines 99-120.  Every row the
engine ever appends has this provenance. -/
def IsBuiltRow (r : Row) : Prop :=
  ∃ s p m c, r = buildRow s p m c

/-- A state transformer that only appends built rows to the accumulator:
the engine appends and never deletes (lines 104/112/120). -/
def RowsShaped {α : Type} (f : CState → α → CState) : Prop :=
  ∀ (st : CState) (a : α),
    ∃ t, (f st a).rows = st.rows ++ t ∧ ∀ r ∈ t, IsBuiltRow r

end DigiPatch

/-! ### Concrete fixtures for witnesses and counterexamples -/

/-- A post whose author is deleted (`post.author` is `None`). -/
def fxPost : DigiPatch.Post :=
  ⟨"p1", "T", none, 3, 2, 1, "u", 100⟩

/-- A tombstoned comment, author also deleted. -/
def fxTomb : DigiPatch.Comment :=
  ⟨none, 1, "[deleted]", 200⟩

/-- An ordinary comment. -/
def fxComment : DigiPatch.Comment :=
  ⟨some "alice", 2, "hello", 300⟩

/-- A provider whose single post carries a single tombstoned comment. -/
def fxProvTomb : DigiPatch.Provider :=
  { subredditOf := fun s => .ok s
    listing := fun _ _ _ => .ok [fxPost]
    comments := fun _ => .ok [fxTomb] }

/-- A provider whose comment-tree fetch always raises. -/
def fxProvErr : DigiPatch.Provider :=
  { subredditOf := fun s => .ok s
    listing := fun _ _ _ => .ok [fxPost]
    comments := fun _ => .error "boom" }

/-- A provider whose listing fetch succeeds for `"hot"` and raises for
every other sorting method. -/
def fxProvDrop : DigiPatch.Provider :=
  { subredditOf := fun s => .ok s
    listing := fun _ m _ => if m = "hot" then .ok [fxPost] else .error "boom"
    comments := fun _ => .ok [] }

/-- A provider whose subreddit lookup always raises. -/
def fxProvNoSub : DigiPatch.Provider :=
  { subredditOf := fun _ => .error "not found"
    listing := fun _ _ _ => .ok [fxPost]
    comments := fun _ => .ok [] }

/-- A provider returning exactly two posts for every listing request and
two ordinary comments per post. -/
def fxProvTwo : DigiPatch.Provider :=
  { subredditOf := fun s => .ok s
    listing := fun _ _ _ => .ok [fxPost, fxPost]
    comments := fun _ => .ok [fxComment, fxTomb] }

/-! ### Auxiliary lemmas -/

namespace DigiPatch

theorem take_eq_take_min {α : Type} (l : List α) (n : Nat) :
    l.take n = l.take (min n l.length) := by
  induction l generalizing n with
  | nil => simp
  | cons a l ih =>
    cases n with
    | zero => simp
    | succ m => simp [List.take_succ_cons, Nat.succ_min_succ, ih]

theorem evSeq_append (total : Option Nat) (a : Nat) :
    ∀ (s b : Nat), evSeq total s a ++ evSeq total (s + a) b = evSeq total s (a + b) := by
  induction a with
  | zero => intro s b; simp [evSeq]
  | succ n ih =>
    intro s b
    rw [show s + (n + 1) = (s + 1) + n from by omega,
        show n + 1 + b = (n + b) + 1 from by omega]
    simp only [evSeq, List.cons_append, ih]

theorem foldl_shaped {α : Type} (total : Option Nat) (f : CState → α → CState)
    (hf : Shaped total f) :
    ∀ (l : List α) (st : CState),
      ∃ d, (l.foldl f st).iter = st.iter + d ∧
        (l.foldl f st).progress = st.progress ++ evSeq total st.iter d := by
  intro l
  induction l with
  | nil => intro st; exact ⟨0, by simp, by simp [evSeq]⟩
  | cons a l ih =>
    intro st
    obtain ⟨d1, h1, h2⟩ := hf st a
    obtain ⟨d2, h3, h4⟩ := ih (f st a)
    refine ⟨d1 + d2, ?_, ?_⟩
    · rw [List.foldl_cons, h3, h1, Nat.add_assoc]
    · simp only [List.foldl_cons, h4, h2, h1, List.append_assoc, evSeq_append]

theorem stepPost_shaped (prov : Provider) (subName method : String) (cc : Bool)
    (cl total : Option Nat) :
    Shaped total (stepPost prov subName method cc cl total) := by
  intro st p
  exact ⟨1, rfl, by simp [stepPost, evSeq]⟩

theorem processMethodStep_shaped (prov : Provider) (subName handle : String)
    (pl : Option Nat) (cc : Bool) (cl total : Option Nat) :
    Shaped total (processMethodStep prov subName handle pl cc cl total) := by
  intro st m
  cases h : prov.listing handle m pl with
  | ok posts =>
      have he : processMethodStep prov subName handle pl cc cl total st m
          = posts.foldl (stepPost prov subName m cc cl total) st := by
        simp [processMethodStep, fetchOnce, processPosts, h]
      rw [he]
      exact foldl_shaped total _ (stepPost_shaped prov subName m cc cl total) posts st
  | error e =>
      have he : processMethodStep prov subName handle pl cc cl total st m
          = { st with warnings := st.warnings ++ [listingWarning subName m e] } := by
        simp [processMethodStep, fetchOnce, h]
      rw [he]
      exact ⟨0, by simp, by simp [evSeq]⟩

theorem processSubreddit_shaped (prov : Provider) (ms : List String)
    (pl : Option Nat) (cc : Bool) (cl total : Option Nat) :
    Shaped total (processSubreddit prov ms pl cc cl total) := by
  intro st subName
  cases h : prov.subredditOf subName with
  | ok handle =>
      have he : processSubreddit prov ms pl cc cl total st subName
          = ms.foldl (processMethodStep prov subName handle pl cc cl total) st := by
        simp [processSubreddit, h]
      rw [he]
      exact foldl_shaped total _ (processMethodStep_shaped prov subName handle pl cc cl total) ms st
  | error e =>
      have he : processSubreddit prov ms pl cc cl total st subName
          = { st with warnings := st.warnings ++ [subredditWarning subName e] } := by
        simp [processSubreddit, h]
      rw [he]
      exact ⟨0, by simp, by simp [evSeq]⟩

theorem collect_progress_eq (prov : Provider) (subs ms : List String)
    (pl : Option Nat) (cc : Bool) (sleep : ℚ) (cl : Option Nat) :
    ∃ d, (collect_reddit_data prov subs ms pl cc sleep cl).progress
      = evSeq (totalIterations subs ms pl) 0 d := by
  obtain ⟨d, _, h2⟩ :=
    foldl_shaped (totalIterations subs ms pl) _
      (processSubreddit_shaped prov ms pl cc cl (totalIterations subs ms pl)) subs initState
  exact ⟨d, by simpa [collect_reddit_data, collectFrom, initState] using h2⟩

theorem evSeq_mem_frac (t : Nat) :
    ∀ (n s : Nat) (ev : Progress), ev ∈ evSeq (some t) s n →
      ∃ q, ev = .frac q ∧ 0 ≤ q ∧ q ≤ 1 := by
  intro n
  induction n with
  | zero => intro s ev h; simp [evSeq] at h
  | succ m ih =>
    intro s ev h
    simp only [evSeq] at h
    rcases List.mem_cons.mp h with h | h
    · subst h
      refine ⟨min (((s + 1 : Nat) : ℚ) / (t : ℚ)) 1, rfl, ?_, min_le_right _ _⟩
      refine le_min (div_nonneg ?_ ?_) zero_le_one
      · positivity
      · positivity
    · exact ih (s + 1) ev h

theorem evSeq_mem_count :
    ∀ (n s : Nat) (ev : Progress), ev ∈ evSeq none s n → ∃ k, ev = .count k := by
  intro n
  induction n with
  | zero => intro s ev h; simp [evSeq] at h
  | succ m ih =>
    intro s ev h
    simp only [evSeq] at h
    rcases List.mem_cons.mp h with h | h
    · exact ⟨s + 1, h⟩
    · exact ih (s + 1) ev h

theorem mkEvent_mono (total : Option Nat) (j k : Nat) (h : j ≤ k) :
    progLE (mkEvent total j) (mkEvent total k) := by
  cases total with
  | none => simpa [mkEvent, progLE] using Nat.succ_le_succ h
  | some t =>
    simp only [mkEvent, progLE]
    rcases Nat.eq_zero_or_pos t with h0 | hpos
    · subst h0; simp
    · have ht : (0 : ℚ) < t := by exact_mod_cast hpos
      refine min_le_min ?_ le_rfl
      refine (div_le_div_iff_of_pos_right ht).mpr ?_
      exact_mod_cast Nat.succ_le_succ h

theorem evSeq_chain (total : Option Nat) :
    ∀ (n s : Nat), List.Chain' progLE (evSeq total s n) := by
  intro n
  induction n with
  | zero => intro s; simp [evSeq]
  | succ m ih =>
    intro s
    cases m with
    | zero => simp [evSeq]
    | succ k =>
      simp only [evSeq]
      exact List.Chain'.cons (mkEvent_mono total s (s + 1) (by omega))
        (by simpa only [evSeq] using ih (s + 1))

theorem processPost_rows_built (prov : Provider) (subName method : String) (cc : Bool)
    (cl : Option Nat) (p : Post) :
    ∀ r ∈ (processPost prov subName method cc cl p).1, IsBuiltRow r := by
  intro r hr
  cases cc with
  | false =>
      simp [processPost] at hr
      exact ⟨subName, p, method, none, hr⟩
  | true =>
      cases h : prov.comments p with
      | ok cs =>
          simp only [processPost, fetchOnce, h] at hr
          cases hemp : (selectComments cl cs).isEmpty with
          | true =>
              simp [hemp] at hr
              exact ⟨subName, p, method, none, hr⟩
          | false =>
              simp [hemp] at hr
              obtain ⟨c, _, rfl⟩ := hr
              exact ⟨subName, p, method, some c, rfl⟩
      | error e =>
          simp [processPost, fetchOnce, h] at hr
          exact ⟨subName, p, method, none, hr⟩

theorem foldl_rowsShaped {α : Type} (f : CState → α → CState) (hf : RowsShaped f) :
    ∀ (l : List α) (st : CState),
      ∃ t, (l.foldl f st).rows = st.rows ++ t ∧ ∀ r ∈ t, IsBuiltRow r := by
  intro l
  induction l with
  | nil => intro st; exact ⟨[], by simp, by simp⟩
  | cons a l ih =>
    intro st
    obtain ⟨t1, h1, h2⟩ := hf st a
    obtain ⟨t2, h3, h4⟩ := ih (f st a)
    refine ⟨t1 ++ t2, ?_, ?_⟩
    · simp only [List.foldl_cons, h3, h1, List.append_assoc]
    · intro r hr
      rcases List.mem_append.mp hr with h | h
      · exact h2 r h
      · exact h4 r h

theorem stepPost_rowsShaped (prov : Provider) (subName method : String) (cc : Bool)
    (cl total : Option Nat) :
    RowsShaped (stepPost prov subName method cc cl total) := by
  intro st p
  exact ⟨(processPost prov subName method cc cl p).1, rfl,
    processPost_rows_built prov subName method cc cl p⟩

theorem processMethodStep_rowsShaped (prov : Provider) (subName handle : String)
    (pl : Option Nat) (cc : Bool) (cl total : Option Nat) :
    RowsShaped (processMethodStep prov subName handle pl cc cl total) := by
  intro st m
  cases h : prov.listing handle m pl with
  | ok posts =>
      have he : processMethodStep prov subName handle pl cc cl total st m
          = posts.foldl (stepPost prov subName m cc cl total) st := by
        simp [processMethodStep, fetchOnce, processPosts, h]
      rw [he]
      exact foldl_rowsShaped _ (stepPost_rowsShaped prov subName m cc cl total) posts st
  | error e =>
      have he : processMethodStep prov subName handle pl cc cl total st m
          = { st with warnings := st.warnings ++ [listingWarning subName m e] } := by
        simp [processMethodStep, fetchOnce, h]
      rw [he]
      exact ⟨[], by simp, by simp⟩

theorem processSubreddit_rowsShaped (prov : Provider) (ms : List String)
    (pl : Option Nat) (cc : Bool) (cl total : Option Nat) :
    RowsShaped (processSubreddit prov ms pl cc cl total) := by
  intro st subName
  cases h : prov.subredditOf subName with
  | ok handle =>
      have he : processSubreddit prov ms pl cc cl total st subName
          = ms.foldl (processMethodStep prov subName handle pl cc cl total) st := by
        simp [processSubreddit, h]
      rw [he]
      exact foldl_rowsShaped _
        (processMethodStep_rowsShaped prov subName handle pl cc cl total) ms st
  | error e =>
      have he : processSubreddit prov ms pl cc cl total st subName
          = { st with warnings := st.warnings ++ [subredditWarning subName e] } := by
        simp [processSubreddit, h]
      rw [he]
      exact ⟨[], by simp, by simp⟩

theorem collectFrom_rows (prov : Provider) (ms : List String) (pl : Option Nat)
    (cc : Bool) (cl total : Option Nat) :
    ∀ (subs : List String) (st : CState),
      ∃ t, (collectFrom prov ms pl cc cl total st subs).rows = st.rows ++ t
        ∧ ∀ r ∈ t, IsBuiltRow r := by
  intro subs st
  exact foldl_rowsShaped _ (processSubreddit_rowsShaped prov ms pl cc cl total) subs st

theorem processPosts_iter (prov : Provider) (subName method : String) (cc : Bool)
    (cl total : Option Nat) :
    ∀ (posts : List Post) (st : CState),
      (processPosts prov subName method cc cl total st posts).iter
        = st.iter + posts.length := by
  intro posts
  induction posts with
  | nil => intro st; simp [processPosts]
  | cons p ps ih =>
    intro st
    have he : processPosts prov subName method cc cl total st (p :: ps)
        = processPosts prov subName method cc cl total
            (stepPost prov subName method cc cl total st p) ps := rfl
    rw [he, ih]
    simp only [stepPost, List.length_cons]
    omega

end DigiPatch

/-! ### Claims -/

/-- C1, counterexample: the engine performs no tombstone filtering.  With a
provider whose single post carries one comment whose body is exactly
`"[deleted]"`, that comment appears verbatim in the output rows — refuting
the claim that such comments never appear among the kept comments emitted
into the output. -/
theorem c1_tombstone_appears_in_output :
    fxTomb.body = "[deleted]"
    ∧ (DigiPatch.collect_reddit_data fxProvTomb ["s"] ["hot"] (some 1) true 0 none).rows.map
        DigiPatch.Row.commentBody = [some "[deleted]"] :=
  ⟨rfl, by decide⟩

/-- C1, amended: comment bodies pass through selection unfiltered — for any
successfully fetched comment list with a non-empty selection, the engine
emits exactly one row per selected comment whose `commentBody` is the
comment's body verbatim, tombstone sentinels included. -/
theorem c1_selection_passes_bodies_unfiltered (prov : DigiPatch.Provider)
    (subName method : String) (cl : Option Nat) (p : DigiPatch.Post)
    (cs : List DigiPatch.Comment) (h : prov.comments p = .ok cs)
    (hne : DigiPatch.selectComments cl cs ≠ []) :
    (DigiPatch.processPost prov subName method true cl p).1
      = (DigiPatch.selectComments cl cs).map
          (fun c => DigiPatch.buildRow subName p method (some c))
    ∧ ((DigiPatch.processPost prov subName method true cl p).1).map
        DigiPatch.Row.commentBody
      = (DigiPatch.selectComments cl cs).map (fun c => some c.body) := by
  have hf : (DigiPatch.selectComments cl cs).isEmpty = false := by
    simpa [List.isEmpty_iff] using hne
  have h1 : (DigiPatch.processPost prov subName method true cl p).1
      = (DigiPatch.selectComments cl cs).map
          (fun c => DigiPatch.buildRow subName p method (some c)) := by
    simp [DigiPatch.processPost, DigiPatch.fetchOnce, h, hf]
  refine ⟨h1, ?_⟩
  rw [h1, List.map_map]
  rfl

/-- C1, amended, witness at a concrete input: the selected comment list
contains the tombstoned comment and its body reaches the output rows. -/
theorem c1_selection_passes_bodies_unfiltered_witness :
    fxProvTomb.comments fxPost = .ok [fxTomb]
    ∧ DigiPatch.selectComments (some 1) [fxTomb] ≠ []
    ∧ ((DigiPatch.processPost fxProvTomb "s" "hot" true (some 1) fxPost).1).map
        DigiPatch.Row.commentBody
      = (DigiPatch.selectComments (some 1) [fxTomb]).map (fun c => some c.body) := by
  have h : fxProvTomb.comments fxPost = .ok [fxTomb] := rfl
  have hne : DigiPatch.selectComments (some 1) [fxTomb] ≠ [] := by decide
  exact ⟨h, hne,
    (c1_selection_passes_bodies_unfiltered fxProvTomb "s" "hot" (some 1) fxPost [fxTomb]
      h hne).2⟩

/-- C2, counterexample: when fetching a post's comments raises, the code
does record a row for that post — a placeholder row with null comment
fields — refuting "no row is recorded for that failed post beyond rows
already accumulated".  Here nothing was accumulated before the failure,
yet one row is recorded, alongside the surfaced warning. -/
theorem c2_placeholder_row_recorded_on_comment_failure :
    (DigiPatch.collect_reddit_data fxProvErr ["s"] ["hot"] (some 1) true 0 none).rows.length = 1
    ∧ (DigiPatch.collect_reddit_data fxProvErr ["s"] ["hot"] (some 1) true 0 none).rows.map
        DigiPatch.Row.commentBody = [none]
    ∧ (DigiPatch.collect_reddit_data fxProvErr ["s"] ["hot"] (some 1) true 0 none).warnings
        = ["Error collecting comments for post p1 in r/s: boom"] :=
  ⟨by decide, by decide, by decide⟩

/-- C2, amended: when fetching one post's comments raises, the exception is
caught, a warning is surfaced, a single placeholder row with null comment
fields is recorded for that post, and processing continues with the
remaining posts. -/
theorem c2_comment_failure_caught_warn_placeholder_continue
    (prov : DigiPatch.Provider) (subName method : String) (cl total : Option Nat)
    (st : DigiPatch.CState) (p : DigiPatch.Post) (ps : List DigiPatch.Post)
    (e : String) (h : prov.comments p = .error e) :
    DigiPatch.processPost prov subName method true cl p
      = ([DigiPatch.buildRow subName p method none],
         [DigiPatch.commentsWarning p.id subName e])
    ∧ (DigiPatch.stepPost prov subName method true cl total st p).rows
        = st.rows ++ [DigiPatch.buildRow subName p method none]
    ∧ (DigiPatch.stepPost prov subName method true cl total st p).warnings
        = st.warnings ++ [DigiPatch.commentsWarning p.id subName e]
    ∧ DigiPatch.processPosts prov subName method true cl total st (p :: ps)
        = DigiPatch.processPosts prov subName method true cl total
            (DigiPatch.stepPost prov subName method true cl total st p) ps := by
  have h1 : DigiPatch.processPost prov subName method true cl p
      = ([DigiPatch.buildRow subName p method none],
         [DigiPatch.commentsWarning p.id subName e]) := by
    simp [DigiPatch.processPost, DigiPatch.fetchOnce, h]
  exact ⟨h1, by simp [DigiPatch.stepPost, h1], by simp [DigiPatch.stepPost, h1], rfl⟩

/-- C2, amended, witness at a concrete input. -/
theorem c2_comment_failure_caught_warn_placeholder_continue_witness :
    fxProvErr.comments fxPost = .error "boom"
    ∧ DigiPatch.processPost fxProvErr "s" "hot" true none fxPost
        = ([DigiPatch.buildRow "s" fxPost "hot" none],
           [DigiPatch.commentsWarning fxPost.id "s" "boom"]) := by
  have h : fxProvErr.comments fxPost = .error "boom" := rfl
  exact ⟨h,
    (c2_comment_failure_caught_warn_placeholder_continue fxProvErr "s" "hot" none none
      DigiPatch.initState fxPost [] "boom" h).1⟩

/-- C3, counterexample: in `app_with_user_input.py` a failure does drop
already-accumulated rows.  With a provider that succeeds for `"hot"`
(one row accumulates) and raises for `"new"`, the two-method run returns
the empty list, while the `"hot"`-only run shows the row that had been
accumulated before the failure. -/
theorem c3_variant_drops_accumulated_rows :
    UserInput.collect_reddit_data fxProvDrop "s" ["hot", "new"] (some 1) = []
    ∧ UserInput.collect_reddit_data fxProvDrop "s" ["hot"] (some 1)
        = [UserInput.buildPostRow fxPost "hot"] :=
  ⟨by decide, by decide⟩

/-- C3, amended: in `digipatchapp.py` no failure drops already-accumulated
rows — the engine only ever appends to the accumulator, so rows present
before any unit of work survive to the returned state; but in
`app_with_user_input.py` any exception escaping to the outer handlers makes
the function return `[]`, discarding the rows accumulated before the
failure. -/
theorem c3_engine_preserves_variant_drops :
    (∀ (prov : DigiPatch.Provider) (ms : List String) (pl : Option Nat) (cc : Bool)
        (cl total : Option Nat) (st : DigiPatch.CState) (subs : List String),
      ∃ t, (DigiPatch.collectFrom prov ms pl cc cl total st subs).rows = st.rows ++ t)
    ∧ (∀ (prov : DigiPatch.Provider) (subName : String) (ms : List String)
        (limit : Option Nat) (e : String),
        UserInput.collectGo prov subName ms limit = .error e →
        UserInput.collect_reddit_data prov subName ms limit = []) := by
  constructor
  · intro prov ms pl cc cl total st subs
    obtain ⟨t, h1, _⟩ := DigiPatch.collectFrom_rows prov ms pl cc cl total subs st
    exact ⟨t, h1⟩
  · intro prov subName ms limit e h
    simp [UserInput.collect_reddit_data, h]

/-- C3, amended, witness at a concrete input: the failing two-method run of
the variant returns `[]`. -/
theorem c3_engine_preserves_variant_drops_witness :
    UserInput.collectGo fxProvDrop "s" ["hot", "new"] (some 1) = .error "boom"
    ∧ UserInput.collect_reddit_data fxProvDrop "s" ["hot", "new"] (some 1) = [] := by
  have h : UserInput.collectGo fxProvDrop "s" ["hot", "new"] (some 1) = .error "boom" := rfl
  exact ⟨h, c3_engine_preserves_variant_drops.2 fxProvDrop "s" ["hot", "new"] (some 1) "boom" h⟩

/-- C4, counterexample: there is no retry.  An operation that always fails
with the throttling message is invoked exactly once — not `MAX_RETRIES = 5`
times — and an operation that fails only on its first attempt (and would
succeed on a retry) still ends in the failure, refuting the claimed
retry-up-to-`MAX_RETRIES` behavior. -/
theorem c4_no_retry_single_attempt :
    (DigiPatch.fetchOnce
        (fun _ => (Except.error "too many requests" : Except String (List DigiPatch.Post)))).2 = 1
    ∧ ((DigiPatch.fetchOnce
        (fun _ => (Except.error "too many requests" : Except String (List DigiPatch.Post)))).2 = 5
      → False)
    ∧ (DigiPatch.fetchOnce
        (fun attempt => if attempt = 0
          then (Except.error "too many requests" : Except String Nat)
          else .ok 7)).1 = .error "too many requests" :=
  ⟨rfl, by decide, rfl⟩

/-- C4, amended: each remote fetch is attempted exactly once — the single
attempt's result is taken as-is, and a failing listing fetch (rate-limit
included) is immediately converted to a warning and that unit of work
skipped; no retry budget exists. -/
theorem c4_fetch_is_single_attempt {α : Type} (op : Nat → Except String α)
    (prov : DigiPatch.Provider) (subName handle method : String)
    (pl cl total : Option Nat) (cc : Bool) (st : DigiPatch.CState) (e : String)
    (h : prov.listing handle method pl = .error e) :
    (DigiPatch.fetchOnce op).2 = 1
    ∧ (DigiPatch.fetchOnce op).1 = op 0
    ∧ DigiPatch.processMethodStep prov subName handle pl cc cl total st method
        = { st with warnings := st.warnings
              ++ [DigiPatch.listingWarning subName method e] } := by
  refine ⟨rfl, rfl, ?_⟩
  simp [DigiPatch.processMethodStep, DigiPatch.fetchOnce, h]

/-- C4, amended, witness at a concrete input. -/
theorem c4_fetch_is_single_attempt_witness :
    fxProvDrop.listing "s" "new" (some 1) = .error "boom"
    ∧ DigiPatch.processMethodStep fxProvDrop "s" "s" (some 1) true none none
        DigiPatch.initState "new"
      = { DigiPatch.initState with warnings := DigiPatch.initState.warnings
            ++ [DigiPatch.listingWarning "s" "new" "boom"] } := by
  have h : fxProvDrop.listing "s" "new" (some 1) = .error "boom" := rfl
  exact ⟨h,
    (c4_fetch_is_single_attempt (fun _ => (Except.ok 0 : Except String Nat)) fxProvDrop
      "s" "s" "new" (some 1) none none true DigiPatch.initState "boom" h).2.2⟩

/-- C5: under `Limit(n)` with `n ≥ 1`, comment selection returns exactly
the first `min(n, L)` elements of the materialized list, in their original
order (a prefix of the input). -/
theorem c5_limit_policy_first_min (allComments : List DigiPatch.Comment) (n : Nat)
    (h : 1 ≤ n) :
    DigiPatch.selectComments (some n) allComments
      = allComments.take (min n allComments.length)
    ∧ (DigiPatch.selectComments (some n) allComments).length = min n allComments.length
    ∧ ∃ t, allComments = DigiPatch.selectComments (some n) allComments ++ t := by
  refine ⟨?_, ?_, ?_⟩
  · exact DigiPatch.take_eq_take_min allComments n
  · simp [DigiPatch.selectComments]
  · exact ⟨allComments.drop n, (List.take_append_drop n allComments).symm⟩

/-- C5, witness at a concrete input. -/
theorem c5_limit_policy_first_min_witness :
    1 ≤ 3
    ∧ (DigiPatch.selectComments (some 3) [fxComment, fxTomb]
        = [fxComment, fxTomb].take (min 3 [fxComment, fxTomb].length)
      ∧ (DigiPatch.selectComments (some 3) [fxComment, fxTomb]).length
          = min 3 [fxComment, fxTomb].length
      ∧ ∃ t, [fxComment, fxTomb] = DigiPatch.selectComments (some 3) [fxComment, fxTomb] ++ t) :=
  ⟨by decide, c5_limit_policy_first_min [fxComment, fxTomb] 3 (by decide)⟩

/-- C6: left-join row shape.  A post whose selection keeps `N ≥ 1` comments
contributes exactly `N` rows, one per kept comment with the post fields
repeated; a post whose selection keeps none, or whose comment collection is
disabled, contributes exactly one row whose comment fields are all null;
and a post's contribution is appended as such to the accumulated output. -/
theorem c6_leftjoin_row_shape (prov : DigiPatch.Provider) (subName method : String)
    (cl total : Option Nat) (st : DigiPatch.CState) (p : DigiPatch.Post)
    (cs : List DigiPatch.Comment) (h : prov.comments p = .ok cs) :
    ((DigiPatch.stepPost prov subName method true cl total st p).rows
        = st.rows ++ (DigiPatch.processPost prov subName method true cl p).1)
    ∧ (DigiPatch.selectComments cl cs ≠ [] →
        (DigiPatch.processPost prov subName method true cl p).1
          = (DigiPatch.selectComments cl cs).map
              (fun c => DigiPatch.buildRow subName p method (some c))
        ∧ (DigiPatch.processPost prov subName method true cl p).1.length
            = (DigiPatch.selectComments cl cs).length)
    ∧ (DigiPatch.selectComments cl cs = [] →
        (DigiPatch.processPost prov subName method true cl p).1
          = [DigiPatch.buildRow subName p method none])
    ∧ ((DigiPatch.processPost prov subName method false cl p).1
        = [DigiPatch.buildRow subName p method none])
    ∧ ((DigiPatch.buildRow subName p method none).commentAuthor = none
        ∧ (DigiPatch.buildRow subName p method none).commentScore = none
        ∧ (DigiPatch.buildRow subName p method none).commentBody = none
        ∧ (DigiPatch.buildRow subName p method none).commentCreated = none)
    ∧ (∀ c, DigiPatch.postFields (DigiPatch.buildRow subName p method c)
        = DigiPatch.postFields (DigiPatch.buildRow subName p method none)) := by
  refine ⟨rfl, ?_, ?_, by simp [DigiPatch.processPost], ⟨rfl, rfl, rfl, rfl⟩, fun c => rfl⟩
  · intro hne
    have hf : (DigiPatch.selectComments cl cs).isEmpty = false := by
      simpa [List.isEmpty_iff] using hne
    constructor
    · simp [DigiPatch.processPost, DigiPatch.fetchOnce, h, hf]
    · simp [DigiPatch.processPost, DigiPatch.fetchOnce, h, hf]
  · intro he
    simp [DigiPatch.processPost, DigiPatch.fetchOnce, h, he]

/-- C6, witness at a concrete input: a post with two kept comments
contributes exactly the two matching rows. -/
theorem c6_leftjoin_row_shape_witness :
    fxProvTwo.comments fxPost = .ok [fxComment, fxTomb]
    ∧ DigiPatch.selectComments (some 5) [fxComment, fxTomb] ≠ []
    ∧ (DigiPatch.processPost fxProvTwo "s" "hot" true (some 5) fxPost).1
        = (DigiPatch.selectComments (some 5) [fxComment, fxTomb]).map
            (fun c => DigiPatch.buildRow "s" fxPost "hot" (some c)) := by
  have h : fxProvTwo.comments fxPost = .ok [fxComment, fxTomb] := rfl
  have hne : DigiPatch.selectComments (some 5) [fxComment, fxTomb] ≠ [] := by decide
  exact ⟨h, hne,
    ((c6_leftjoin_row_shape fxProvTwo "s" "hot" (some 5) none DigiPatch.initState fxPost
      [fxComment, fxTomb] h).2.1 hne).1⟩

/-- C7: a subreddit lookup failure adds exactly one warning, leaves rows,
progress and the iteration counter untouched, and iteration resumes with
the remaining subreddits; a listing fetch failure for one sorting method
likewise adds exactly one warning and iteration resumes with the remaining
sorting methods. -/
theorem c7_failures_skip_smallest_unit (prov : DigiPatch.Provider)
    (ms rest mrest : List String) (pl : Option Nat) (cc : Bool) (cl total : Option Nat)
    (st : DigiPatch.CState) (subName handle m e : String) :
    (prov.subredditOf subName = .error e →
        DigiPatch.processSubreddit prov ms pl cc cl total st subName
          = { st with warnings := st.warnings ++ [DigiPatch.subredditWarning subName e] }
      ∧ DigiPatch.collectFrom prov ms pl cc cl total st (subName :: rest)
          = DigiPatch.collectFrom prov ms pl cc cl total
              { st with warnings := st.warnings ++ [DigiPatch.subredditWarning subName e] }
              rest)
    ∧ (prov.listing handle m pl = .error e →
        DigiPatch.processMethodStep prov subName handle pl cc cl total st m
          = { st with warnings := st.warnings ++ [DigiPatch.listingWarning subName m e] }
      ∧ (m :: mrest).foldl
            (DigiPatch.processMethodStep prov subName handle pl cc cl total) st
          = mrest.foldl (DigiPatch.processMethodStep prov subName handle pl cc cl total)
              { st with warnings := st.warnings
                  ++ [DigiPatch.listingWarning subName m e] }) := by
  constructor
  · intro h
    have h1 : DigiPatch.processSubreddit prov ms pl cc cl total st subName
        = { st with warnings := st.warnings ++ [DigiPatch.subredditWarning subName e] } := by
      simp [DigiPatch.processSubreddit, h]
    refine ⟨h1, ?_⟩
    have h2 : DigiPatch.collectFrom prov ms pl cc cl total st (subName :: rest)
        = DigiPatch.collectFrom prov ms pl cc cl total
            (DigiPatch.processSubreddit prov ms pl cc cl total st subName) rest := rfl
    rw [h2, h1]
  · intro h
    have h1 : DigiPatch.processMethodStep prov subName handle pl cc cl total st m
        = { st with warnings := st.warnings ++ [DigiPatch.listingWarning subName m e] } := by
      simp [DigiPatch.processMethodStep, DigiPatch.fetchOnce, h]
    refine ⟨h1, ?_⟩
    rw [List.foldl_cons, h1]

/-- C7, witness at concrete inputs: a failing subreddit lookup and a
failing listing fetch each add exactly their warning. -/
theorem c7_failures_skip_smallest_unit_witness :
    fxProvNoSub.subredditOf "s" = .error "not found"
    ∧ DigiPatch.processSubreddit fxProvNoSub ["hot"] (some 1) false none none
        DigiPatch.initState "s"
      = { DigiPatch.initState with warnings := DigiPatch.initState.warnings
            ++ [DigiPatch.subredditWarning "s" "not found"] }
    ∧ fxProvDrop.listing "s" "new" (some 1) = .error "boom"
    ∧ DigiPatch.processMethodStep fxProvDrop "s" "s" (some 1) false none none
        DigiPatch.initState "new"
      = { DigiPatch.initState with warnings := DigiPatch.initState.warnings
            ++ [DigiPatch.listingWarning "s" "new" "boom"] } := by
  have ha : fxProvNoSub.subredditOf "s" = .error "not found" := rfl
  have hb : fxProvDrop.listing "s" "new" (some 1) = .error "boom" := rfl
  exact ⟨ha,
    ((c7_failures_skip_smallest_unit fxProvNoSub ["hot"] [] [] (some 1) false none none
      DigiPatch.initState "s" "s" "new" "not found").1 ha).1,
    hb,
    ((c7_failures_skip_smallest_unit fxProvDrop ["hot"] [] [] (some 1) false none none
      DigiPatch.initState "s" "s" "new" "boom").2 hb).1⟩

/-- C8: for a community whose lookup succeeds and a provider returning
exactly `postLimit` posts for every requested sorting method with no
failures, the number of posts processed for that community is
`len(methods) * postLimit`. -/
theorem c8_post_count_methods_times_limit (prov : DigiPatch.Provider)
    (subName handle : String) (ms : List String) (l : Nat) (cc : Bool)
    (cl total : Option Nat) (st : DigiPatch.CState)
    (hsub : prov.subredditOf subName = .ok handle)
    (hl : 1 ≤ l)
    (hlist : ∀ m ∈ ms, ∃ ps, prov.listing handle m (some l) = .ok ps ∧ ps.length = l) :
    (DigiPatch.processSubreddit prov ms (some l) cc cl total st subName).iter
      = st.iter + ms.length * l := by
  have he : DigiPatch.processSubreddit prov ms (some l) cc cl total st subName
      = ms.foldl (DigiPatch.processMethodStep prov subName handle (some l) cc cl total) st := by
    simp [DigiPatch.processSubreddit, hsub]
  suffices aux : ∀ ms' : List String,
      (∀ m ∈ ms', ∃ ps, prov.listing handle m (some l) = .ok ps ∧ ps.length = l) →
      ∀ st' : DigiPatch.CState,
        ((ms'.foldl (DigiPatch.processMethodStep prov subName handle (some l) cc cl total)
            st').iter = st'.iter + ms'.length * l) by
    rw [he]
    exact aux ms hlist st
  intro ms'
  induction ms' with
  | nil => intro _ st'; simp
  | cons m mrest ih =>
    intro hl' st'
    obtain ⟨ps, hm, hlen⟩ := hl' m (List.mem_cons_self m mrest)
    have h1 : DigiPatch.processMethodStep prov subName handle (some l) cc cl total st' m
        = DigiPatch.processPosts prov subName m cc cl total st' ps := by
      simp [DigiPatch.processMethodStep, DigiPatch.fetchOnce, DigiPatch.processPosts, hm]
    rw [List.foldl_cons, h1, ih (fun m' hm' => hl' m' (List.mem_cons_of_mem m hm')),
        DigiPatch.processPosts_iter, hlen]
    simp only [List.length_cons]
    ring

/-- C8, witness at a concrete input: 2 sorting methods × 2 posts each
gives 4 processed posts. -/
theorem c8_post_count_methods_times_limit_witness :
    fxProvTwo.subredditOf "s" = .ok "s"
    ∧ 1 ≤ 2
    ∧ (∀ m ∈ ["hot", "new"], ∃ ps, fxProvTwo.listing "s" m (some 2) = .ok ps ∧ ps.length = 2)
    ∧ (DigiPatch.processSubreddit fxProvTwo ["hot", "new"] (some 2) false none none
        DigiPatch.initState "s").iter = DigiPatch.initState.iter + 2 * 2 := by
  have h1 : fxProvTwo.subredditOf "s" = .ok "s" := rfl
  have h3 : ∀ m ∈ ["hot", "new"], ∃ ps, fxProvTwo.listing "s" m (some 2) = .ok ps
      ∧ ps.length = 2 :=
    fun m _ => ⟨[fxPost, fxPost], rfl, rfl⟩
  refine ⟨h1, by decide, h3, ?_⟩
  have := c8_post_count_methods_times_limit fxProvTwo "s" "s" ["hot", "new"] 2 false none
    none DigiPatch.initState h1 (by decide) h3
  simpa using this

/-- C9: with the post limit set the total expected count is known and every
reported progress event is a fraction in `[0, 1]`, the sequence being
monotonically non-decreasing over the whole run — whatever the provider
returns, including fewer posts than the limit; with the post limit absent
every reported progress event is a running processed count (also
non-decreasing). -/
theorem c9_progress_monotone_bounded (prov : DigiPatch.Provider)
    (subs ms : List String) (l : Nat) (cc : Bool) (sleep : ℚ) (cl : Option Nat) :
    (∀ ev ∈ (DigiPatch.collect_reddit_data prov subs ms (some l) cc sleep cl).progress,
        ∃ q, ev = DigiPatch.Progress.frac q ∧ 0 ≤ q ∧ q ≤ 1)
    ∧ List.Chain' DigiPatch.progLE
        (DigiPatch.collect_reddit_data prov subs ms (some l) cc sleep cl).progress
    ∧ (∀ ev ∈ (DigiPatch.collect_reddit_data prov subs ms none cc sleep cl).progress,
        ∃ k, ev = DigiPatch.Progress.count k)
    ∧ List.Chain' DigiPatch.progLE
        (DigiPatch.collect_reddit_data prov subs ms none cc sleep cl).progress := by
  obtain ⟨d1, h1⟩ := DigiPatch.collect_progress_eq prov subs ms (some l) cc sleep cl
  obtain ⟨d2, h2⟩ := DigiPatch.collect_progress_eq prov subs ms none cc sleep cl
  simp only [DigiPatch.totalIterations, Option.map] at h1 h2
  refine ⟨?_, ?_, ?_, ?_⟩
  · intro ev hev
    rw [h1] at hev
    exact DigiPatch.evSeq_mem_frac _ d1 0 ev hev
  · rw [h1]
    exact DigiPatch.evSeq_chain _ d1 0
  · intro ev hev
    rw [h2] at hev
    exact DigiPatch.evSeq_mem_count d2 0 ev hev
  · rw [h2]
    exact DigiPatch.evSeq_chain _ d2 0

/-- C9, witness at a concrete input: the first reported event of a bounded
two-post run is a fraction in `[0, 1]`. -/
theorem c9_progress_monotone_bounded_witness :
    DigiPatch.mkEvent (some 3) 0
        ∈ (DigiPatch.collect_reddit_data fxProvTwo ["s"] ["hot"] (some 3) false 0 none).progress
    ∧ ∃ q, DigiPatch.mkEvent (some 3) 0 = DigiPatch.Progress.frac q ∧ 0 ≤ q ∧ q ≤ 1 := by
  have he : (DigiPatch.collect_reddit_data fxProvTwo ["s"] ["hot"] (some 3) false 0
        none).progress
      = [DigiPatch.mkEvent (some 3) 0, DigiPatch.mkEvent (some 3) 1] := rfl
  have hm : DigiPatch.mkEvent (some 3) 0
      ∈ (DigiPatch.collect_reddit_data fxProvTwo ["s"] ["hot"] (some 3) false 0
          none).progress := by
    rw [he]
    exact List.mem_cons_self _ _
  exact ⟨hm,
    (c9_progress_monotone_bounded fxProvTwo ["s"] ["hot"] 3 false 0 none).1 _ hm⟩

/-- C10: author sentinels are asymmetric.  Every emitted row comes from the
row builder; a post with an absent author yields the literal string
`"None"` in the post-author field, while a comment with an absent author
yields the null sentinel (`none`, never the string `"None"`) in the
comment-author field. -/
theorem c10_author_sentinel_asymmetry (prov : DigiPatch.Provider)
    (subs ms : List String) (pl : Option Nat) (cc : Bool) (sleep : ℚ) (cl : Option Nat)
    (s method : String) (p : DigiPatch.Post) (c : Option DigiPatch.Comment)
    (cm : DigiPatch.Comment) :
    (∀ r ∈ (DigiPatch.collect_reddit_data prov subs ms pl cc sleep cl).rows,
        DigiPatch.IsBuiltRow r)
    ∧ (p.author = none → (DigiPatch.buildRow s p method c).postAuthor = "None")
    ∧ (cm.author = none →
        (DigiPatch.buildRow s p method (some cm)).commentAuthor = none
        ∧ (DigiPatch.buildRow s p method (some cm)).commentAuthor ≠ some "None")
    ∧ (DigiPatch.buildRow s p method (some cm)).commentAuthor = cm.author := by
  refine ⟨?_, ?_, ?_, rfl⟩
  · intro r hr
    obtain ⟨t, h1, h2⟩ := DigiPatch.collectFrom_rows prov ms pl cc cl
      (DigiPatch.totalIterations subs ms pl) subs DigiPatch.initState
    have he : (DigiPatch.collect_reddit_data prov subs ms pl cc sleep cl).rows
        = (DigiPatch.collectFrom prov ms pl cc cl (DigiPatch.totalIterations subs ms pl)
            DigiPatch.initState subs).rows := rfl
    rw [he, h1] at hr
    simp only [DigiPatch.initState, List.nil_append] at hr
    exact h2 r hr
  · intro ha
    simp [DigiPatch.buildRow, DigiPatch.strOfAuthor, ha]
  · intro ha
    constructor
    · simp [DigiPatch.buildRow, ha]
    · simp [DigiPatch.buildRow, ha]

/-- C10, witness at a concrete input: a concrete emitted row has post
author `"None"` and comment author `none`. -/
theorem c10_author_sentinel_asymmetry_witness :
    (DigiPatch.buildRow "s" fxPost "hot" (some fxTomb)
        ∈ (DigiPatch.collect_reddit_data fxProvTomb ["s"] ["hot"] (some 1) true 0 none).rows
      ∧ DigiPatch.IsBuiltRow (DigiPatch.buildRow "s" fxPost "hot" (some fxTomb)))
    ∧ (fxPost.author = none
      ∧ (DigiPatch.buildRow "s" fxPost "hot" (some fxTomb)).postAuthor = "None")
    ∧ (fxTomb.author = none
      ∧ (DigiPatch.buildRow "s" fxPost "hot" (some fxTomb)).commentAuthor = none) := by
  have hm : DigiPatch.buildRow "s" fxPost "hot" (some fxTomb)
      ∈ (DigiPatch.collect_reddit_data fxProvTomb ["s"] ["hot"] (some 1) true 0 none).rows := by
    decide
  have hp : fxPost.author = none := rfl
  have hc : fxTomb.author = none := rfl
  refine ⟨⟨hm, ?_⟩, ⟨hp, ?_⟩, ⟨hc, ?_⟩⟩
  · exact (c10_author_sentinel_asymmetry fxProvTomb ["s"] ["hot"] (some 1) true 0 none
      "s" "hot" fxPost (some fxTomb) fxTomb).1 _ hm
  · exact (c10_author_sentinel_asymmetry fxProvTomb ["s"] ["hot"] (some 1) true 0 none
      "s" "hot" fxPost (some fxTomb) fxTomb).2.1 hp
  · exact ((c10_author_sentinel_asymmetry fxProvTomb ["s"] ["hot"] (some 1) true 0 none
      "s" "hot" fxPost (some fxTomb) fxTomb).2.2.1 hc).1
